import Mathlib

/-!
Shallow embedding of `torch/_op_ctl.py`: the AT Inference Fastpath
backend-control module.  The process-wide global context register owned by
the native runtime is modelled as a function from bit indices to booleans
(`true` = the raw bit is set).  The native eager primitives
`torch._C._get_global_ctx` / `_set_global_ctx` / `_unset_global_ctx` act on
that register directly; the traced (scripting) primitives
`torch.ops.prim._GetGlobalCtx` / `_SetGlobalCtx` / `_UnsetGlobalCtx` live in
the external runtime and are modelled as an abstract triple of functions,
with theorems assuming they act on the register exactly as the eager ones
do.  The `torch.jit.is_scripting()` predicate becomes an explicit boolean
parameter `sc` threaded through every operation, mirroring the branch at
each primitive call site in the source.
-/

namespace OpCtl

/-- The process-wide global context register: one raw bit per context
index; `true` means the bit is set. -/
abbrev Reg := Nat → Bool

/-- Eager primitive `torch._C._get_global_ctx`: read one raw bit. -/
def _get_global_ctx (reg : Reg) (ctx_no : Nat) : Bool :=
  reg ctx_no

/-- Eager primitive `torch._C._set_global_ctx`: set one raw bit to 1. -/
def _set_global_ctx (reg : Reg) (ctx_no : Nat) : Reg :=
  fun n => if n = ctx_no then true else reg n

/-- Eager primitive `torch._C._unset_global_ctx`: clear one raw bit to 0. -/
def _unset_global_ctx (reg : Reg) (ctx_no : Nat) : Reg :=
  fun n => if n = ctx_no then false else reg n

/-- The traced (scripting-path) primitives `torch.ops.prim._GetGlobalCtx`,
`_SetGlobalCtx` and `_UnsetGlobalCtx`, which belong to the external runtime:
modelled abstractly as a triple of register operations. -/
structure TracedPrims where
  getCtx : Reg → Nat → Bool
  setCtx : Reg → Nat → Reg
  unsetCtx : Reg → Nat → Reg

/-- The traced primitives act on the register exactly as the eager
primitives do (the assumption under which both call paths are compared). -/
def TracedPrims.Faithful (tp : TracedPrims) : Prop :=
  tp.getCtx = _get_global_ctx ∧ tp.setCtx = _set_global_ctx ∧
    tp.unsetCtx = _unset_global_ctx

/-- The concrete traced-primitive triple that does exactly what the eager
primitives do; used to instantiate hypotheses at concrete inputs. -/
def tpEager : TracedPrims :=
  ⟨_get_global_ctx, _set_global_ctx, _unset_global_ctx⟩

/-- `ATFPBackend`: the IntEnum of AT Inference Fastpath backends, including
the `bits` member the source declares inside the enum. -/
inductive ATFPBackend where
  | ERROR
  | MATH
  | MHA
  | ENCODER
  | NESTED_TENSOR
  | bits
  deriving DecidableEq, Repr

/-- Integer value of each `ATFPBackend` enum member, as in the source. -/
def ATFPBackend.value : ATFPBackend → Int
  | .ERROR => -1
  | .MATH => 0
  | .MHA => 1
  | .ENCODER => 2
  | .NESTED_TENSOR => 3
  | .bits => 4

/-- `_write_global_ctx(ctx_no, enabled, default=True)`: enables or disables
the global ctx bit `ctx_no`.  `sc` is the value of
`torch.jit.is_scripting()` and `tp` holds the traced primitives used on the
scripting path. -/
def _write_global_ctx (sc : Bool) (tp : TracedPrims) (reg : Reg)
    (ctx_no : Nat) (enabled : Bool) (dflt : Bool := true) : Reg :=
  if enabled = dflt then
    if !sc then _unset_global_ctx reg ctx_no
    else tp.unsetCtx reg ctx_no
  else
    if !sc then _set_global_ctx reg ctx_no
    else tp.setCtx reg ctx_no

/-- `_is_global_ctx(ctx_no, default=True)`: returns whether global ctx
`ctx_no` is enabled, inverting the raw bit against the default. -/
def _is_global_ctx (sc : Bool) (tp : TracedPrims) (reg : Reg)
    (ctx_no : Nat) (dflt : Bool := true) : Bool :=
  if !sc then _get_global_ctx reg ctx_no != dflt
  else tp.getCtx reg ctx_no != dflt

/-- `atfp_math_enabled()`: ctx index 0 (`ATFPBackend.MATH`). -/
def atfp_math_enabled (sc : Bool) (tp : TracedPrims) (reg : Reg) : Bool :=
  _is_global_ctx sc tp reg 0

/-- `enable_atfp_math(enabled)`: ctx index 0 (`ATFPBackend.MATH`). -/
def enable_atfp_math (sc : Bool) (tp : TracedPrims) (reg : Reg)
    (enabled : Bool) : Reg :=
  _write_global_ctx sc tp reg 0 enabled

/-- `atfp_mha_enabled()`: ctx index 1 (`ATFPBackend.MHA`). -/
def atfp_mha_enabled (sc : Bool) (tp : TracedPrims) (reg : Reg) : Bool :=
  _is_global_ctx sc tp reg 1

/-- `enable_atfp_mha(enabled)`: ctx index 1 (`ATFPBackend.MHA`). -/
def enable_atfp_mha (sc : Bool) (tp : TracedPrims) (reg : Reg)
    (enabled : Bool) : Reg :=
  _write_global_ctx sc tp reg 1 enabled

/-- `atfp_encoder_enabled()`: ctx index 2 (`ATFPBackend.ENCODER`). -/
def atfp_encoder_enabled (sc : Bool) (tp : TracedPrims) (reg : Reg) : Bool :=
  _is_global_ctx sc tp reg 2

/-- `enable_atfp_encoder(enabled)`: ctx index 2 (`ATFPBackend.ENCODER`). -/
def enable_atfp_encoder (sc : Bool) (tp : TracedPrims) (reg : Reg)
    (enabled : Bool) : Reg :=
  _write_global_ctx sc tp reg 2 enabled

/-- `atfp_nested_tensor_enabled()`: ctx index 3
(`ATFPBackend.NESTED_TENSOR`). -/
def atfp_nested_tensor_enabled (sc : Bool) (tp : TracedPrims)
    (reg : Reg) : Bool :=
  _is_global_ctx sc tp reg 3

/-- `enable_atfp_nested_tensor(enabled)`: ctx index 3
(`ATFPBackend.NESTED_TENSOR`). -/
def enable_atfp_nested_tensor (sc : Bool) (tp : TracedPrims) (reg : Reg)
    (enabled : Bool) : Reg :=
  _write_global_ctx sc tp reg 3 enabled

/-- The entry phase of `atfp_kernel`: apply the four requested values via
the setters, in source order (math, mha, encoder, nested_tensor). -/
def atfp_apply (sc : Bool) (tp : TracedPrims) (enable_nested_tensor : Bool)
    (enable_encoder : Bool) (enable_mha : Bool) (enable_math : Bool)
    (reg : Reg) : Reg :=
  enable_atfp_nested_tensor sc tp
    (enable_atfp_encoder sc tp
      (enable_atfp_mha sc tp
        (enable_atfp_math sc tp reg enable_math)
        enable_mha)
      enable_encoder)
    enable_nested_tensor

/-- The `finally` phase of `atfp_kernel`: restore the four captured values
via the setters, in the order they were captured (math, mha, encoder,
nested_tensor). -/
def atfp_restore (sc : Bool) (tp : TracedPrims) (previous_math : Bool)
    (previous_mha : Bool) (previous_encoder : Bool)
    (previous_nested_tensor : Bool) (reg : Reg) : Reg :=
  enable_atfp_nested_tensor sc tp
    (enable_atfp_encoder sc tp
      (enable_atfp_mha sc tp
        (enable_atfp_math sc tp reg previous_math)
        previous_mha)
      previous_encoder)
    previous_nested_tensor

/-- `atfp_kernel(*, enable_nested_tensor=True, enable_encoder=True,
enable_mha=True, enable_math=True)`: capture the four flags, apply the
requested values, run the enclosed block, and restore the captured values
on every exit path (the `finally` clause).  The enclosed block is a
register transformer that also reports whether it raised; the raised flag
propagates unchanged through the restore. -/
def atfp_kernel (sc : Bool) (tp : TracedPrims)
    (enable_nested_tensor : Bool := true) (enable_encoder : Bool := true)
    (enable_mha : Bool := true) (enable_math : Bool := true)
    (body : Reg → Reg × Bool) (reg : Reg) : Reg × Bool :=
  let previous_math := atfp_math_enabled sc tp reg
  let previous_mha := atfp_mha_enabled sc tp reg
  let previous_encoder := atfp_encoder_enabled sc tp reg
  let previous_nested_tensor := atfp_nested_tensor_enabled sc tp reg
  let res := body (atfp_apply sc tp enable_nested_tensor enable_encoder
    enable_mha enable_math reg)
  (atfp_restore sc tp previous_math previous_mha previous_encoder
    previous_nested_tensor res.1, res.2)

/-- A call an enclosed block can make through this module's API to mutate
the flag state: one of the four setters with its boolean argument. -/
inductive ATFPCall where
  | math (b : Bool)
  | mha (b : Bool)
  | encoder (b : Bool)
  | nested_tensor (b : Bool)
  deriving DecidableEq, Repr

/-- Interpret one setter call made by an enclosed block. -/
def runCall (sc : Bool) (tp : TracedPrims) : ATFPCall → Reg → Reg
  | .math b, reg => enable_atfp_math sc tp reg b
  | .mha b, reg => enable_atfp_mha sc tp reg b
  | .encoder b, reg => enable_atfp_encoder sc tp reg b
  | .nested_tensor b, reg => enable_atfp_nested_tensor sc tp reg b

/-- Interpret a sequence of setter calls made by an enclosed block. -/
def runCalls (sc : Bool) (tp : TracedPrims) (calls : List ATFPCall)
    (reg : Reg) : Reg :=
  calls.foldl (fun r c => runCall sc tp c r) reg

/-- Getter of backend `i` (math=0, mha=1, encoder=2, nested_tensor=3). -/
def atfpGetter (sc : Bool) (tp : TracedPrims) : Fin 4 → Reg → Bool
  | ⟨0, _⟩ => atfp_math_enabled sc tp
  | ⟨1, _⟩ => atfp_mha_enabled sc tp
  | ⟨2, _⟩ => atfp_encoder_enabled sc tp
  | ⟨3, _⟩ => atfp_nested_tensor_enabled sc tp

/-- Setter of backend `i` (math=0, mha=1, encoder=2, nested_tensor=3). -/
def atfpSetter (sc : Bool) (tp : TracedPrims) : Fin 4 → Reg → Bool → Reg
  | ⟨0, _⟩ => enable_atfp_math sc tp
  | ⟨1, _⟩ => enable_atfp_mha sc tp
  | ⟨2, _⟩ => enable_atfp_encoder sc tp
  | ⟨3, _⟩ => enable_atfp_nested_tensor sc tp

/-- A fresh register: every raw bit unset. -/
def freshReg : Reg := fun _ => false

/-! ### Semantic lemmas for the primitives -/

theorem tpEager_faithful : tpEager.Faithful :=
  ⟨rfl, rfl, rfl⟩

/-- Under a faithful traced triple, `_write_global_ctx` on either call path
sets bit `ctx_no` to `enabled != default` and leaves all other bits
unchanged. -/
theorem write_eq (sc : Bool) (tp : TracedPrims) (h : tp.Faithful)
    (reg : Reg) (ctx_no : Nat) (enabled dflt : Bool) :
    _write_global_ctx sc tp reg ctx_no enabled dflt =
      fun n => if n = ctx_no then enabled != dflt else reg n := by
  obtain ⟨hg, hs, hu⟩ := h
  funext n
  cases sc <;> cases enabled <;> cases dflt <;> by_cases hn : n = ctx_no <;>
    simp [_write_global_ctx, _set_global_ctx, _unset_global_ctx, hs, hu, hn]

/-- Under a faithful traced triple, `_is_global_ctx` on either call path
returns the raw bit compared against the default. -/
theorem is_eq (sc : Bool) (tp : TracedPrims) (h : tp.Faithful)
    (reg : Reg) (ctx_no : Nat) (dflt : Bool) :
    _is_global_ctx sc tp reg ctx_no dflt = (reg ctx_no != dflt) := by
  obtain ⟨hg, hs, hu⟩ := h
  cases sc <;> simp [_is_global_ctx, _get_global_ctx, hg]

/-- Reading backend bit `n` after writing backend bit `m` (both with the
default `true`): the read reports the written value at the same index and
is untouched at any other index. -/
theorem is_after_write (sc : Bool) (tp : TracedPrims) (h : tp.Faithful)
    (reg : Reg) (m n : Nat) (e : Bool) :
    _is_global_ctx sc tp (_write_global_ctx sc tp reg m e) n =
      if n = m then e else _is_global_ctx sc tp reg n := by
  rw [is_eq sc tp h, is_eq sc tp h, write_eq sc tp h]
  by_cases hnm : n = m <;> cases e <;> simp [hnm]

/-- After `atfp_restore`, the four backend getters report exactly the four
restored values, regardless of the register the restore starts from. -/
theorem restore_getters (sc : Bool) (tp : TracedPrims) (h : tp.Faithful)
    (pm pmha penc pnt : Bool) (reg : Reg) :
    atfp_math_enabled sc tp (atfp_restore sc tp pm pmha penc pnt reg) = pm ∧
    atfp_mha_enabled sc tp (atfp_restore sc tp pm pmha penc pnt reg) = pmha ∧
    atfp_encoder_enabled sc tp
      (atfp_restore sc tp pm pmha penc pnt reg) = penc ∧
    atfp_nested_tensor_enabled sc tp
      (atfp_restore sc tp pm pmha penc pnt reg) = pnt := by
  simp [atfp_restore, atfp_math_enabled, atfp_mha_enabled,
    atfp_encoder_enabled, atfp_nested_tensor_enabled, enable_atfp_math,
    enable_atfp_mha, enable_atfp_encoder, enable_atfp_nested_tensor,
    is_after_write sc tp h]

/-- After `atfp_apply`, the four backend getters report exactly the four
requested values, regardless of the register state before entry. -/
theorem apply_getters (sc : Bool) (tp : TracedPrims) (h : tp.Faithful)
    (ent eenc emha emath : Bool) (reg : Reg) :
    atfp_math_enabled sc tp
      (atfp_apply sc tp ent eenc emha emath reg) = emath ∧
    atfp_mha_enabled sc tp
      (atfp_apply sc tp ent eenc emha emath reg) = emha ∧
    atfp_encoder_enabled sc tp
      (atfp_apply sc tp ent eenc emha emath reg) = eenc ∧
    atfp_nested_tensor_enabled sc tp
      (atfp_apply sc tp ent eenc emha emath reg) = ent := by
  simp [atfp_apply, atfp_math_enabled, atfp_mha_enabled,
    atfp_encoder_enabled, atfp_nested_tensor_enabled, enable_atfp_math,
    enable_atfp_mha, enable_atfp_encoder, enable_atfp_nested_tensor,
    is_after_write sc tp h]

/-- After `atfp_kernel` exits, whatever the enclosed block did to the
register, each of the four backend getters reports its pre-entry value. -/
theorem kernel_getters (sc : Bool) (tp : TracedPrims) (h : tp.Faithful)
    (ent eenc emha emath : Bool) (body : Reg → Reg × Bool) (reg : Reg) :
    atfp_math_enabled sc tp
        (atfp_kernel sc tp ent eenc emha emath body reg).1 =
      atfp_math_enabled sc tp reg ∧
    atfp_mha_enabled sc tp
        (atfp_kernel sc tp ent eenc emha emath body reg).1 =
      atfp_mha_enabled sc tp reg ∧
    atfp_encoder_enabled sc tp
        (atfp_kernel sc tp ent eenc emha emath body reg).1 =
      atfp_encoder_enabled sc tp reg ∧
    atfp_nested_tensor_enabled sc tp
        (atfp_kernel sc tp ent eenc emha emath body reg).1 =
      atfp_nested_tensor_enabled sc tp reg := by
  simp only [atfp_kernel]
  exact restore_getters sc tp h _ _ _ _ _

/-- Writing one bit leaves every other bit of the register unchanged. -/
theorem write_frame (sc : Bool) (tp : TracedPrims) (h : tp.Faithful)
    (reg : Reg) (m : Nat) (e dflt : Bool) (n : Nat) (hnm : n ≠ m) :
    _write_global_ctx sc tp reg m e dflt n = reg n := by
  rw [write_eq sc tp h]
  simp [hnm]

/-- `atfp_restore` leaves every bit outside the four backend bits
unchanged. -/
theorem restore_frame (sc : Bool) (tp : TracedPrims) (h : tp.Faithful)
    (pm pmha penc pnt : Bool) (reg : Reg) (n : Nat) (hn : 4 ≤ n) :
    atfp_restore sc tp pm pmha penc pnt reg n = reg n := by
  simp only [atfp_restore, enable_atfp_math, enable_atfp_mha,
    enable_atfp_encoder, enable_atfp_nested_tensor]
  rw [write_frame sc tp h _ _ _ _ _ (by omega),
    write_frame sc tp h _ _ _ _ _ (by omega),
    write_frame sc tp h _ _ _ _ _ (by omega),
    write_frame sc tp h _ _ _ _ _ (by omega)]

/-- `atfp_apply` leaves every bit outside the four backend bits
unchanged. -/
theorem apply_frame (sc : Bool) (tp : TracedPrims) (h : tp.Faithful)
    (ent eenc emha emath : Bool) (reg : Reg) (n : Nat) (hn : 4 ≤ n) :
    atfp_apply sc tp ent eenc emha emath reg n = reg n := by
  simp only [atfp_apply, enable_atfp_math, enable_atfp_mha,
    enable_atfp_encoder, enable_atfp_nested_tensor]
  rw [write_frame sc tp h _ _ _ _ _ (by omega),
    write_frame sc tp h _ _ _ _ _ (by omega),
    write_frame sc tp h _ _ _ _ _ (by omega),
    write_frame sc tp h _ _ _ _ _ (by omega)]

/-- One setter call from an enclosed block leaves every bit outside the
four backend bits unchanged. -/
theorem runCall_frame (sc : Bool) (tp : TracedPrims) (h : tp.Faithful)
    (c : ATFPCall) (reg : Reg) (n : Nat) (hn : 4 ≤ n) :
    runCall sc tp c reg n = reg n := by
  cases c <;>
    simp only [runCall, enable_atfp_math, enable_atfp_mha,
      enable_atfp_encoder, enable_atfp_nested_tensor] <;>
    rw [write_frame sc tp h _ _ _ _ _ (by omega)]

/-- A sequence of setter calls from an enclosed block leaves every bit
outside the four backend bits unchanged. -/
theorem runCalls_frame (sc : Bool) (tp : TracedPrims) (h : tp.Faithful)
    (calls : List ATFPCall) (reg : Reg) (n : Nat) (hn : 4 ≤ n) :
    runCalls sc tp calls reg n = reg n := by
  induction calls generalizing reg with
  | nil => rfl
  | cons c cs ih =>
    show runCalls sc tp cs (runCall sc tp c reg) n = reg n
    rw [ih (runCall sc tp c reg), runCall_frame sc tp h c reg n hn]

/-- Restoring the four values captured from `reg` writes back exactly the
raw bits `reg` had at indices 0..3, whatever register the restore starts
from. -/
theorem restore_captured_bit (sc : Bool) (tp : TracedPrims)
    (h : tp.Faithful) (reg reg' : Reg) (n : Nat) (hn : n < 4) :
    atfp_restore sc tp (atfp_math_enabled sc tp reg)
      (atfp_mha_enabled sc tp reg) (atfp_encoder_enabled sc tp reg)
      (atfp_nested_tensor_enabled sc tp reg) reg' n = reg n := by
  interval_cases n <;>
    simp [atfp_restore, atfp_math_enabled, atfp_mha_enabled,
      atfp_encoder_enabled, atfp_nested_tensor_enabled, enable_atfp_math,
      enable_atfp_mha, enable_atfp_encoder, enable_atfp_nested_tensor,
      write_eq sc tp h, is_eq sc tp h, Bool.not_not]

/-! ### Claim theorems -/

/-- C3: for each of the four backends and each boolean `x`, calling that
backend's setter with `x` and then its getter returns `x`, from any
starting register state (on either call path, assuming the traced
primitives act as the eager ones). -/
theorem setter_then_getter_roundtrip (sc : Bool) (tp : TracedPrims)
    (h : tp.Faithful) (reg : Reg) (x : Bool) :
    atfp_math_enabled sc tp (enable_atfp_math sc tp reg x) = x ∧
    atfp_mha_enabled sc tp (enable_atfp_mha sc tp reg x) = x ∧
    atfp_encoder_enabled sc tp (enable_atfp_encoder sc tp reg x) = x ∧
    atfp_nested_tensor_enabled sc tp
      (enable_atfp_nested_tensor sc tp reg x) = x := by
  simp [atfp_math_enabled, atfp_mha_enabled, atfp_encoder_enabled,
    atfp_nested_tensor_enabled, enable_atfp_math, enable_atfp_mha,
    enable_atfp_encoder, enable_atfp_nested_tensor, is_after_write sc tp h]

/-- Witness for C3 at concrete inputs. -/
theorem setter_then_getter_roundtrip_witness :
    tpEager.Faithful ∧
      atfp_math_enabled true tpEager
        (enable_atfp_math true tpEager freshReg false) = false :=
  ⟨tpEager_faithful,
    (setter_then_getter_roundtrip true tpEager tpEager_faithful
      freshReg false).1⟩

/-- C4: each getter returns the inversion of the raw register bit, and each
setter (with the default enabled value `true`) writes raw bit 0 when the
requested value equals the default and raw bit 1 when it does not. -/
theorem bit_inversion_semantics (sc : Bool) (tp : TracedPrims)
    (h : tp.Faithful) (reg : Reg) (ctx_no : Nat) (enabled : Bool) :
    _is_global_ctx sc tp reg ctx_no true = !(_get_global_ctx reg ctx_no) ∧
    (enabled = true →
      _write_global_ctx sc tp reg ctx_no enabled true ctx_no = false) ∧
    (enabled = false →
      _write_global_ctx sc tp reg ctx_no enabled true ctx_no = true) := by
  rw [is_eq sc tp h, write_eq sc tp h]
  cases enabled <;> simp [_get_global_ctx]

/-- Witness for C4 at concrete inputs. -/
theorem bit_inversion_semantics_witness :
    tpEager.Faithful ∧
      _is_global_ctx true tpEager freshReg 2 true =
        !(_get_global_ctx freshReg 2) :=
  ⟨tpEager_faithful,
    (bit_inversion_semantics true tpEager tpEager_faithful
      freshReg 2 false).1⟩

/-- C5: under the assumption that the traced primitives act on the register
exactly as the eager primitives, the scripting call path and the eager call
path of `_is_global_ctx` and `_write_global_ctx` return the same result and
leave the register in the same state, for every bit index, boolean argument
and default. -/
theorem scripting_eager_equiv (tp : TracedPrims) (h : tp.Faithful)
    (reg : Reg) (ctx_no : Nat) (enabled dflt : Bool) :
    _is_global_ctx true tp reg ctx_no dflt =
      _is_global_ctx false tp reg ctx_no dflt ∧
    _write_global_ctx true tp reg ctx_no enabled dflt =
      _write_global_ctx false tp reg ctx_no enabled dflt := by
  constructor
  · rw [is_eq true tp h, is_eq false tp h]
  · rw [write_eq true tp h, write_eq false tp h]

/-- Witness for C5 at concrete inputs. -/
theorem scripting_eager_equiv_witness :
    tpEager.Faithful ∧
      _is_global_ctx true tpEager freshReg 1 true =
        _is_global_ctx false tpEager freshReg 1 true :=
  ⟨tpEager_faithful,
    (scripting_eager_equiv tpEager tpEager_faithful
      freshReg 1 false true).1⟩

/-- C7: on a fresh register with all raw bits unset, each of the four
getters returns `true`. -/
theorem fresh_register_defaults (sc : Bool) (tp : TracedPrims)
    (h : tp.Faithful) :
    atfp_math_enabled sc tp freshReg = true ∧
    atfp_mha_enabled sc tp freshReg = true ∧
    atfp_encoder_enabled sc tp freshReg = true ∧
    atfp_nested_tensor_enabled sc tp freshReg = true := by
  simp [atfp_math_enabled, atfp_mha_enabled, atfp_encoder_enabled,
    atfp_nested_tensor_enabled, is_eq sc tp h, freshReg]

/-- Witness for C7 at concrete inputs. -/
theorem fresh_register_defaults_witness :
    tpEager.Faithful ∧ atfp_math_enabled true tpEager freshReg = true :=
  ⟨tpEager_faithful,
    (fresh_register_defaults true tpEager tpEager_faithful).1⟩

/-- C1: for every pre-entry register, every combination of the four keyword
arguments, and every enclosed block given as a sequence of setter calls
that then raises, `atfp_kernel` restores all four flags before the
exception propagates: the full register after the exceptional exit equals
the register before entry, and the raised flag propagates. -/
theorem kernel_exceptional_exit_restores (sc : Bool) (tp : TracedPrims)
    (h : tp.Faithful) (ent eenc emha emath : Bool) (calls : List ATFPCall)
    (reg : Reg) :
    (atfp_kernel sc tp ent eenc emha emath
        (fun r => (runCalls sc tp calls r, true)) reg).1 = reg ∧
    (atfp_kernel sc tp ent eenc emha emath
        (fun r => (runCalls sc tp calls r, true)) reg).2 = true := by
  constructor
  · funext n
    show atfp_restore sc tp (atfp_math_enabled sc tp reg)
      (atfp_mha_enabled sc tp reg) (atfp_encoder_enabled sc tp reg)
      (atfp_nested_tensor_enabled sc tp reg)
      (runCalls sc tp calls
        (atfp_apply sc tp ent eenc emha emath reg)) n = reg n
    rcases Nat.lt_or_ge n 4 with hn | hn
    · exact restore_captured_bit sc tp h reg _ n hn
    · rw [restore_frame sc tp h _ _ _ _ _ n hn,
        runCalls_frame sc tp h calls _ n hn,
        apply_frame sc tp h ent eenc emha emath reg n hn]
  · rfl

/-- Witness for C1 at concrete inputs. -/
theorem kernel_exceptional_exit_restores_witness :
    tpEager.Faithful ∧
      (atfp_kernel true tpEager false true false true
        (fun r => (runCalls true tpEager
          [ATFPCall.math false, ATFPCall.nested_tensor false] r, true))
        freshReg).1 = freshReg :=
  ⟨tpEager_faithful,
    (kernel_exceptional_exit_restores true tpEager tpEager_faithful
      false true false true
      [ATFPCall.math false, ATFPCall.nested_tensor false] freshReg).1⟩

/-- C2: after a normal (non-raising) exit of `atfp_kernel`, each of the
four flags reads as its pre-entry value regardless of what the enclosed
block did to the register, the non-raised flag propagates, and the result
register is the composition of the four restores applied in the capture
order math, mha, encoder, nested_tensor. -/
theorem kernel_normal_exit_restores (sc : Bool) (tp : TracedPrims)
    (h : tp.Faithful) (ent eenc emha emath : Bool)
    (body : Reg → Reg × Bool) (reg : Reg)
    (hnormal :
      (body (atfp_apply sc tp ent eenc emha emath reg)).2 = false) :
    (atfp_math_enabled sc tp
          (atfp_kernel sc tp ent eenc emha emath body reg).1 =
        atfp_math_enabled sc tp reg ∧
      atfp_mha_enabled sc tp
          (atfp_kernel sc tp ent eenc emha emath body reg).1 =
        atfp_mha_enabled sc tp reg ∧
      atfp_encoder_enabled sc tp
          (atfp_kernel sc tp ent eenc emha emath body reg).1 =
        atfp_encoder_enabled sc tp reg ∧
      atfp_nested_tensor_enabled sc tp
          (atfp_kernel sc tp ent eenc emha emath body reg).1 =
        atfp_nested_tensor_enabled sc tp reg) ∧
    (atfp_kernel sc tp ent eenc emha emath body reg).2 = false ∧
    (atfp_kernel sc tp ent eenc emha emath body reg).1 =
      enable_atfp_nested_tensor sc tp
        (enable_atfp_encoder sc tp
          (enable_atfp_mha sc tp
            (enable_atfp_math sc tp
              (body (atfp_apply sc tp ent eenc emha emath reg)).1
              (atfp_math_enabled sc tp reg))
            (atfp_mha_enabled sc tp reg))
          (atfp_encoder_enabled sc tp reg))
        (atfp_nested_tensor_enabled sc tp reg) :=
  ⟨kernel_getters sc tp h ent eenc emha emath body reg, hnormal, rfl⟩

/-- Witness for C2 at concrete inputs. -/
theorem kernel_normal_exit_restores_witness :
    tpEager.Faithful ∧
      ((fun r => (r, false))
        (atfp_apply false tpEager true false true false freshReg)).2 =
          false ∧
      atfp_math_enabled false tpEager
          (atfp_kernel false tpEager true false true false
            (fun r => (r, false)) freshReg).1 =
        atfp_math_enabled false tpEager freshReg :=
  ⟨tpEager_faithful, rfl,
    (kernel_normal_exit_restores false tpEager tpEager_faithful
      true false true false (fun r => (r, false)) freshReg rfl).1.1⟩

/-- C6: with two nested `atfp_kernel` scopes, exiting the inner scope
restores the four flag values the outer scope had established at the point
the inner scope was entered (the outer scope's requested options), and
exiting the outer scope restores the process's original pre-outer-entry
flag values, for every combination of original values and both scopes'
options and for every inner block. -/
theorem nested_kernel_restores (sc : Bool) (tp : TracedPrims)
    (h : tp.Faithful) (oNT oE oMha oMath iNT iE iMha iMath : Bool)
    (ibody : Reg → Reg × Bool) (reg : Reg) :
    (atfp_math_enabled sc tp
          (atfp_kernel sc tp iNT iE iMha iMath ibody
            (atfp_apply sc tp oNT oE oMha oMath reg)).1 = oMath ∧
      atfp_mha_enabled sc tp
          (atfp_kernel sc tp iNT iE iMha iMath ibody
            (atfp_apply sc tp oNT oE oMha oMath reg)).1 = oMha ∧
      atfp_encoder_enabled sc tp
          (atfp_kernel sc tp iNT iE iMha iMath ibody
            (atfp_apply sc tp oNT oE oMha oMath reg)).1 = oE ∧
      atfp_nested_tensor_enabled sc tp
          (atfp_kernel sc tp iNT iE iMha iMath ibody
            (atfp_apply sc tp oNT oE oMha oMath reg)).1 = oNT) ∧
    (atfp_math_enabled sc tp
          (atfp_kernel sc tp oNT oE oMha oMath
            (fun r => atfp_kernel sc tp iNT iE iMha iMath ibody r)
            reg).1 =
        atfp_math_enabled sc tp reg ∧
      atfp_mha_enabled sc tp
          (atfp_kernel sc tp oNT oE oMha oMath
            (fun r => atfp_kernel sc tp iNT iE iMha iMath ibody r)
            reg).1 =
        atfp_mha_enabled sc tp reg ∧
      atfp_encoder_enabled sc tp
          (atfp_kernel sc tp oNT oE oMha oMath
            (fun r => atfp_kernel sc tp iNT iE iMha iMath ibody r)
            reg).1 =
        atfp_encoder_enabled sc tp reg ∧
      atfp_nested_tensor_enabled sc tp
          (atfp_kernel sc tp oNT oE oMha oMath
            (fun r => atfp_kernel sc tp iNT iE iMha iMath ibody r)
            reg).1 =
        atfp_nested_tensor_enabled sc tp reg) := by
  constructor
  · simp [kernel_getters sc tp h, apply_getters sc tp h]
  · exact kernel_getters sc tp h oNT oE oMha oMath _ reg

/-- Witness for C6 at concrete inputs. -/
theorem nested_kernel_restores_witness :
    tpEager.Faithful ∧
      atfp_math_enabled true tpEager
          (atfp_kernel true tpEager true true true false
            (fun r => (r, false))
            (atfp_apply true tpEager false false false true
              freshReg)).1 = true :=
  ⟨tpEager_faithful,
    (nested_kernel_restores true tpEager tpEager_faithful
      false false false true true true true false
      (fun r => (r, false)) freshReg).1.1⟩

/-- C8: toggling one backend's flag does not affect any other backend's
observed value: for distinct backend indices `i` and `j`, setting backend
`i` leaves backend `j`'s getter result unchanged.  (That every getter
leaves the register unchanged is expressed by construction: the getters
have type `Reg → Bool` and return no register.) -/
theorem independent_backend_toggle (sc : Bool) (tp : TracedPrims)
    (h : tp.Faithful) (i j : Fin 4) (hij : i ≠ j) (x : Bool) (reg : Reg) :
    atfpGetter sc tp j (atfpSetter sc tp i reg x) =
      atfpGetter sc tp j reg := by
  fin_cases i <;> fin_cases j <;>
    first
      | exact absurd rfl hij
      | simp [atfpGetter, atfpSetter, atfp_math_enabled, atfp_mha_enabled,
          atfp_encoder_enabled, atfp_nested_tensor_enabled,
          enable_atfp_math, enable_atfp_mha, enable_atfp_encoder,
          enable_atfp_nested_tensor, is_after_write sc tp h]

/-- Witness for C8 at concrete inputs. -/
theorem independent_backend_toggle_witness :
    tpEager.Faithful ∧ (0 : Fin 4) ≠ 1 ∧
      atfpGetter true tpEager 1
          (atfpSetter true tpEager 0 freshReg false) =
        atfpGetter true tpEager 1 freshReg :=
  ⟨tpEager_faithful, by decide,
    independent_backend_toggle true tpEager tpEager_faithful 0 1
      (by decide) false freshReg⟩

/-- C9: the backend enumeration has exactly the values ERROR=-1, MATH=0,
MHA=1, ENCODER=2, NESTED_TENSOR=3 with bit-width 4, and each accessor pair
reads and writes the register bit whose index is its backend's enumeration
value. -/
theorem backend_enum_and_indices (sc : Bool) (tp : TracedPrims) (reg : Reg)
    (e : Bool) :
    ATFPBackend.ERROR.value = -1 ∧ ATFPBackend.MATH.value = 0 ∧
    ATFPBackend.MHA.value = 1 ∧ ATFPBackend.ENCODER.value = 2 ∧
    ATFPBackend.NESTED_TENSOR.value = 3 ∧ ATFPBackend.bits.value = 4 ∧
    atfp_math_enabled sc tp reg =
      _is_global_ctx sc tp reg ATFPBackend.MATH.value.toNat ∧
    enable_atfp_math sc tp reg e =
      _write_global_ctx sc tp reg ATFPBackend.MATH.value.toNat e ∧
    atfp_mha_enabled sc tp reg =
      _is_global_ctx sc tp reg ATFPBackend.MHA.value.toNat ∧
    enable_atfp_mha sc tp reg e =
      _write_global_ctx sc tp reg ATFPBackend.MHA.value.toNat e ∧
    atfp_encoder_enabled sc tp reg =
      _is_global_ctx sc tp reg ATFPBackend.ENCODER.value.toNat ∧
    enable_atfp_encoder sc tp reg e =
      _write_global_ctx sc tp reg ATFPBackend.ENCODER.value.toNat e ∧
    atfp_nested_tensor_enabled sc tp reg =
      _is_global_ctx sc tp reg ATFPBackend.NESTED_TENSOR.value.toNat ∧
    enable_atfp_nested_tensor sc tp reg e =
      _write_global_ctx sc tp reg ATFPBackend.NESTED_TENSOR.value.toNat e :=
  ⟨rfl, rfl, rfl, rfl, rfl, rfl, rfl, rfl, rfl, rfl, rfl, rfl, rfl, rfl⟩

/-- C10: immediately after entry of `atfp_kernel`, each backend's enabled
state equals the corresponding keyword argument; the block receives exactly
the register produced by applying the four requested values; and with the
default arguments (all `true`) all four backends read as enabled inside
the block whatever their pre-entry state, so the defaults mean "enable",
not "leave unchanged". -/
theorem kernel_entry_applies (sc : Bool) (tp : TracedPrims)
    (h : tp.Faithful) (ent eenc emha emath : Bool)
    (body : Reg → Reg × Bool) (reg : Reg) :
    (atfp_math_enabled sc tp
        (atfp_apply sc tp ent eenc emha emath reg) = emath ∧
      atfp_mha_enabled sc tp
        (atfp_apply sc tp ent eenc emha emath reg) = emha ∧
      atfp_encoder_enabled sc tp
        (atfp_apply sc tp ent eenc emha emath reg) = eenc ∧
      atfp_nested_tensor_enabled sc tp
        (atfp_apply sc tp ent eenc emha emath reg) = ent) ∧
    atfp_kernel sc tp ent eenc emha emath body reg =
      (atfp_restore sc tp (atfp_math_enabled sc tp reg)
        (atfp_mha_enabled sc tp reg) (atfp_encoder_enabled sc tp reg)
        (atfp_nested_tensor_enabled sc tp reg)
        (body (atfp_apply sc tp ent eenc emha emath reg)).1,
       (body (atfp_apply sc tp ent eenc emha emath reg)).2) ∧
    (atfp_math_enabled sc tp
        (atfp_apply sc tp true true true true reg) = true ∧
      atfp_mha_enabled sc tp
        (atfp_apply sc tp true true true true reg) = true ∧
      atfp_encoder_enabled sc tp
        (atfp_apply sc tp true true true true reg) = true ∧
      atfp_nested_tensor_enabled sc tp
        (atfp_apply sc tp true true true true reg) = true) :=
  ⟨apply_getters sc tp h ent eenc emha emath reg, rfl,
    apply_getters sc tp h true true true true reg⟩

/-- Witness for C10 at concrete inputs: the pre-entry register has every
raw bit set (all four backends disabled), yet inside a default-argument
scope every backend reads as enabled. -/
theorem kernel_entry_applies_witness :
    tpEager.Faithful ∧
      atfp_math_enabled true tpEager
        (atfp_apply true tpEager true true true true
          (fun _ => true)) = true :=
  ⟨tpEager_faithful,
    ((kernel_entry_applies true tpEager tpEager_faithful true true true
      true (fun r => (r, false)) (fun _ => true)).2.2).1⟩

end OpCtl
